import Mathlib

/-!
Verification of the rate-limiting, abuse-guard, snapshot-cache, broadcast
admission and security-pipeline logic of the tskuy2 service, shallowly
embedded from the Rust sources (`src/rate_limiter.rs`, `src/state.rs`,
`src/security.rs`, `src/handlers.rs`, `src/treasury.rs`, `src/usd_idr.rs`,
`src/utils.rs`, `src/ws_manager.rs`, `src/config.rs`).

Machine integers (`u64`, `usize`, `i64`) are modelled as `Nat`/`Int`;
timestamps are assumed monotone (hypotheses `t ≤ now` replace the
impossible-in-practice wrapping subtraction).  Rust's saturating `u64`
subtraction coincides with `Nat` subtraction.
-/

namespace Tskuy

/-! ## Constants (src/config.rs) -/

def MAX_HISTORY : Nat := 1441
def MAX_USD_HISTORY : Nat := 11
def MAX_CONNECTIONS : Nat := 500
def STATE_CACHE_TTL_MS : Nat := 20
def MIN_LIMIT : Int := 0
def MAX_LIMIT : Int := 88888
def RATE_LIMIT_SECONDS : Nat := 5
def MAX_FAILED_ATTEMPTS : Nat := 5
def BLOCK_DURATION_SECS : Nat := 300
def RATE_LIMIT_WINDOW : Nat := 60
def RATE_LIMIT_MAX_REQUESTS : Nat := 60
def RATE_LIMIT_STRICT_MAX : Nat := 120

/-- Denylist of path fragments (src/config.rs, `SUSPICIOUS_PATHS`). -/
def SUSPICIOUS_PATHS : List String :=
  ["/admin", "/login", "/wp-admin", "/phpmyadmin", "/.env", "/config",
   "/api/admin", "/administrator", "/wp-login", "/backup", "/.git",
   "/shell", "/cmd", "/exec", "/eval", "/system", "/passwd", "/etc"]

/-! ## Rate limiter (src/rate_limiter.rs) -/

/-- Verdicts of `RateLimiter::check` (src/rate_limiter.rs, `RateLimitStatus`). -/
inductive RateLimitStatus where
  | Ok
  | Limited
  | Blocked
deriving DecidableEq

/-- Result of one `check` call: the returned triple `(bool, usize, status)`
plus the per-key timestamp list after the call. -/
structure CheckResult where
  allowed : Bool
  count : Nat
  status : RateLimitStatus
  timestamps : List Nat
deriving DecidableEq

/-- Shallow embedding of `RateLimiter::check` (src/rate_limiter.rs lines
52–71) for one key: prune timestamps at or before `now - RATE_LIMIT_WINDOW`
(`retain(|&t| t > cutoff)` with saturating subtraction = `Nat` subtraction),
branch on the remaining count, and record `now` only on the `Ok` path.
The global `cleanup` sweep prunes the same key with the identical predicate
just before this retain, so it does not change the per-key result. -/
def RateLimiter.check (timestamps : List Nat) (now : Nat) : CheckResult :=
  let cutoff := now - RATE_LIMIT_WINDOW
  let entry := timestamps.filter (fun t => decide (cutoff < t))
  let count := entry.length
  if RATE_LIMIT_STRICT_MAX ≤ count then
    { allowed := false, count := count, status := .Blocked, timestamps := entry }
  else if RATE_LIMIT_MAX_REQUESTS ≤ count then
    { allowed := false, count := count, status := .Limited, timestamps := entry }
  else
    { allowed := true, count := count + 1, status := .Ok, timestamps := entry ++ [now] }

/-- Per-key timestamp list after `n` consecutive `check` calls at time `t`
starting from an empty record. -/
def RateLimiter.calls (t : Nat) : Nat → List Nat
  | 0 => []
  | n + 1 => (RateLimiter.check (RateLimiter.calls t n) t).timestamps

theorem filter_replicate_of_true {α : Type} (p : α → Bool) (a : α)
    (h : p a = true) (n : Nat) :
    List.filter p (List.replicate n a) = List.replicate n a := by
  induction n with
  | zero => rfl
  | succ k ih => simp [List.replicate_succ, List.filter_cons, h, ih]

/-- After `n` same-instant calls the per-key record holds `min n 60`
copies of the timestamp: the `Limited` branch does not record. -/
theorem RateLimiter.calls_eq (t : Nat) (ht : 1 ≤ t) :
    ∀ n, RateLimiter.calls t n = List.replicate (min n 60) t := by
  intro n
  induction n with
  | zero => rfl
  | succ k ih =>
    have hcut : decide (t - RATE_LIMIT_WINDOW < t) = true := by
      simp only [decide_eq_true_eq, RATE_LIMIT_WINDOW]
      omega
    show (RateLimiter.check (RateLimiter.calls t k) t).timestamps = _
    rw [ih]
    simp only [RateLimiter.check]
    rw [filter_replicate_of_true (fun x => decide (t - RATE_LIMIT_WINDOW < x)) t hcut]
    simp only [List.length_replicate]
    by_cases hk : k < 60
    · have h1 : ¬ RATE_LIMIT_STRICT_MAX ≤ min k 60 := by
        simp only [RATE_LIMIT_STRICT_MAX]; omega
      have h2 : ¬ RATE_LIMIT_MAX_REQUESTS ≤ min k 60 := by
        simp only [RATE_LIMIT_MAX_REQUESTS]; omega
      rw [if_neg h1, if_neg h2]
      have : min k 60 = k := by omega
      rw [this]
      have : min (k + 1) 60 = k + 1 := by omega
      rw [this, ← List.replicate_succ']
    · have h1 : ¬ RATE_LIMIT_STRICT_MAX ≤ min k 60 := by
        simp only [RATE_LIMIT_STRICT_MAX]; omega
      have h2 : RATE_LIMIT_MAX_REQUESTS ≤ min k 60 := by
        simp only [RATE_LIMIT_MAX_REQUESTS]; omega
      rw [if_neg h1, if_pos h2]
      have : min k 60 = 60 := by omega
      rw [this]
      have : min (k + 1) 60 = 60 := by omega
      rw [this]

theorem filter_replicate_of_false {α : Type} (p : α → Bool) (a : α)
    (h : p a = false) (n : Nat) :
    List.filter p (List.replicate n a) = [] := by
  induction n with
  | zero => rfl
  | succ k ih => simp [List.replicate_succ, List.filter_cons, h, ih]

theorem RateLimiter.check_status_ok (l : List Nat) (now : Nat)
    (h : (List.filter (fun x => decide (now - RATE_LIMIT_WINDOW < x)) l).length
          < RATE_LIMIT_MAX_REQUESTS) :
    (RateLimiter.check l now).status = RateLimitStatus.Ok := by
  simp only [RateLimiter.check, RATE_LIMIT_MAX_REQUESTS, RATE_LIMIT_STRICT_MAX,
    RATE_LIMIT_WINDOW] at h ⊢
  split
  · next hc => omega
  · split
    · next hc => omega
    · rfl

theorem RateLimiter.check_status_limited (l : List Nat) (now : Nat)
    (h1 : RATE_LIMIT_MAX_REQUESTS ≤
      (List.filter (fun x => decide (now - RATE_LIMIT_WINDOW < x)) l).length)
    (h2 : (List.filter (fun x => decide (now - RATE_LIMIT_WINDOW < x)) l).length
          < RATE_LIMIT_STRICT_MAX) :
    (RateLimiter.check l now).status = RateLimitStatus.Limited := by
  simp only [RateLimiter.check, RATE_LIMIT_MAX_REQUESTS, RATE_LIMIT_STRICT_MAX,
    RATE_LIMIT_WINDOW] at h1 h2 ⊢
  split
  · next hc => omega
  · rfl

theorem RateLimiter.check_status_ne_blocked (l : List Nat) (now : Nat)
    (h : (List.filter (fun x => decide (now - RATE_LIMIT_WINDOW < x)) l).length
          < RATE_LIMIT_STRICT_MAX) :
    (RateLimiter.check l now).status ≠ RateLimitStatus.Blocked := by
  simp only [RateLimiter.check, RATE_LIMIT_STRICT_MAX, RATE_LIMIT_WINDOW] at h ⊢
  split
  · next hc => omega
  · split
    · simp
    · simp

/-- C1 (amended): with all calls of a single key inside one 60-second window,
`check` returns `Ok` for the first 60 calls and `Limited` for every call from
the 61st onward — the `Limited` branch does not record a timestamp, so the
pruned count never exceeds 60 and `Blocked` is never returned; once every
recorded timestamp has aged past the window, `check` returns `Ok` again. -/
theorem C1_single_key_window (t n : Nat) (ht : 1 ≤ t) :
    ((n < 60 → (RateLimiter.check (RateLimiter.calls t n) t).status = RateLimitStatus.Ok) ∧
     (60 ≤ n → (RateLimiter.check (RateLimiter.calls t n) t).status = RateLimitStatus.Limited) ∧
     (RateLimiter.check (RateLimiter.calls t n) t).status ≠ RateLimitStatus.Blocked) ∧
    ∀ t2, t + RATE_LIMIT_WINDOW ≤ t2 →
      (RateLimiter.check (RateLimiter.calls t n) t2).status = RateLimitStatus.Ok := by
  rw [RateLimiter.calls_eq t ht]
  have hcut : decide (t - RATE_LIMIT_WINDOW < t) = true := by
    simp only [decide_eq_true_eq, RATE_LIMIT_WINDOW]
    omega
  have hflt := filter_replicate_of_true
    (fun x => decide (t - RATE_LIMIT_WINDOW < x)) t hcut (min n 60)
  refine ⟨⟨?_, ?_, ?_⟩, ?_⟩
  · intro hn
    apply RateLimiter.check_status_ok
    rw [hflt]
    simp only [List.length_replicate, RATE_LIMIT_MAX_REQUESTS]
    omega
  · intro hn
    apply RateLimiter.check_status_limited
    · rw [hflt]
      simp only [List.length_replicate, RATE_LIMIT_MAX_REQUESTS]
      omega
    · rw [hflt]
      simp only [List.length_replicate, RATE_LIMIT_STRICT_MAX]
      omega
  · apply RateLimiter.check_status_ne_blocked
    rw [hflt]
    simp only [List.length_replicate, RATE_LIMIT_STRICT_MAX]
    omega
  · intro t2 ht2
    apply RateLimiter.check_status_ok
    have hcut2 : decide (t2 - RATE_LIMIT_WINDOW < t) = false := by
      simp only [decide_eq_false_iff_not, RATE_LIMIT_WINDOW] at ht2 ⊢
      omega
    rw [filter_replicate_of_false
      (fun x => decide (t2 - RATE_LIMIT_WINDOW < x)) t hcut2]
    simp [RATE_LIMIT_MAX_REQUESTS]

/-- C1 counterexample: the 121st call of a single key inside one window
returns `Limited`, not `Blocked` — the claimed `Blocked` verdict never
happens because `Limited` calls are not recorded. -/
theorem C1_counterexample :
    (RateLimiter.check (RateLimiter.calls 1000 120) 1000).status = RateLimitStatus.Limited ∧
    RateLimitStatus.Limited ≠ RateLimitStatus.Blocked := by
  constructor
  · rw [RateLimiter.calls_eq 1000 (by decide) 120]
    decide
  · decide

/-- C1 witness: concrete instantiations of `C1_single_key_window`. -/
theorem C1_witness :
    (1 ≤ 100 ∧ (RateLimiter.check (RateLimiter.calls 100 0) 100).status = RateLimitStatus.Ok) ∧
    (RateLimiter.check (RateLimiter.calls 100 70) 100).status = RateLimitStatus.Limited ∧
    (RateLimiter.check (RateLimiter.calls 100 70) 200).status = RateLimitStatus.Ok :=
  ⟨⟨by decide, (C1_single_key_window 100 0 (by decide)).1.1 (by decide)⟩,
   (C1_single_key_window 100 70 (by decide)).1.2.1 (by decide),
   (C1_single_key_window 100 70 (by decide)).2 200 (by decide)⟩

/-! ## Display helpers (src/utils.rs)

`calc_profit` (src/utils.rs lines 62–78) is not modelled: it computes with
`f64` floating point, which is outside this embedding; no claim below
depends on the `jt10`…`jt50` fields it produces. -/

/-- Successive 3-character groups of a digit string; models the
`for i in (first..len).step_by(3)` loop body of `format_rupiah`. -/
def threeChunks (l : List Char) : List (List Char) :=
  match l with
  | [] => []
  | c :: rest => ((c :: rest).take 3) :: threeChunks (rest.drop 2)
termination_by l.length
decreasing_by
  simp only [List.length_drop, List.length_cons]
  omega

/-- Shallow embedding of `utils::format_rupiah` (src/utils.rs lines 16–43):
the decimal digits of `|n|`, grouped in threes from the right with `.`
separators (a short leading group first), and a leading `-` when `n < 0`.
The Rust loop appends a `.` before every group once the accumulator is
non-empty, which is exactly interspersing `.` between the leading group
(when `len % 3 > 0`) and the 3-digit chunks. -/
def format_rupiah (n : Int) : String :=
  let s := Nat.repr n.natAbs
  let b := s.toList
  let len := b.length
  if len ≤ 3 then
    if n < 0 then "-" ++ s else s
  else
    let first := len % 3
    let lead : List (List Char) := if 0 < first then [b.take first] else []
    let r : List Char := List.intercalate ['.'] (lead ++ threeChunks (b.drop first))
    if n < 0 then "-" ++ String.mk r else String.mk r

/-- Shallow embedding of `utils::format_diff_display` (src/utils.rs lines
45–51).  The match arms test for the clean-UTF-8 rocket and down-triangle
emoji exactly as written in utils.rs. -/
def format_diff_display (diff : Int) (status : String) : String :=
  if status = "🚀" then "🚀+" ++ format_rupiah diff
  else if status = "🔻" then "🔻-" ++ format_rupiah |diff|
  else "➖tetap"

/-- Shallow embedding of `utils::format_waktu_only` (src/utils.rs lines
53–60): byte slice `[11..19]` of `created_at` when it has at least 19
bytes (all scenario strings are ASCII, so bytes = characters), else the
whole string, followed by the status tag. -/
def format_waktu_only (createdAt status : String) : String :=
  let time := if 19 ≤ createdAt.length
    then String.mk ((createdAt.toList.drop 11).take 8)
    else createdAt
  time ++ status

/-! ## Treasury price feed (src/treasury.rs) and history items (src/state.rs) -/

/-- Status literal stored for an unchanged price: the three code points
U+00E2 U+017E U+2013 that src/treasury.rs lines 63 and 69 literally contain
(the file holds a Latin-1 mojibake of a heavy-minus emoji, and those exact
bytes are what the program stores and compares). -/
def STATUS_NEUTRAL : String := "âž–"

/-- Status literal stored for a price rise: the four code points
U+00F0 U+0178 U+0161 U+20AC literally contained in src/treasury.rs line 66. -/
def STATUS_UP : String := "ðŸš€"

/-- Status literal stored for a price drop: the four code points
U+00F0 U+0178 U+201D U+00BB literally contained in src/treasury.rs line 67. -/
def STATUS_DOWN : String := "ðŸ”»"

/-- Gold price history entry (src/state.rs, `GoldEntry`). -/
structure GoldEntry where
  buying_rate : Int
  selling_rate : Int
  status : String
  diff : Int
  created_at : String
deriving DecidableEq

/-- USD/IDR history entry (src/state.rs, `UsdIdrEntry`). -/
structure UsdIdrEntry where
  price : String
  time : String
deriving DecidableEq

/-- The slice of `AppState` that `treasury::process_data` reads and writes:
`has_last_buy`, `last_buy`, the `shown_updates` dedup set (modelled as a
list of seen keys) and the gold history. -/
structure TreasuryState where
  hasLastBuy : Bool
  lastBuy : Int
  shownUpdates : List String
  history : List GoldEntry
deriving DecidableEq

/-- Shallow embedding of `treasury::process_data` (src/treasury.rs lines
32–90), taking the `buying_rate`/`selling_rate` fields after `parse_number`
and the optional `created_at` string.  Cache invalidation and broadcast are
modelled separately (C6); the function returns the updated state slice. -/
def process_data (st : TreasuryState) (buy? sell? : Option Int)
    (createdAt? : Option String) : TreasuryState :=
  match buy? with
  | none => st
  | some buy =>
    match sell? with
    | none => st
    | some sell =>
      match createdAt? with
      | none => st
      | some created =>
        if created = "" then st
        else if st.shownUpdates.contains created then st
        else
          let shown := created :: st.shownUpdates
          let shown := if 5000 < shown.length then [created] else shown
          let sd : String × Int :=
            if !st.hasLastBuy then (STATUS_NEUTRAL, 0)
            else if st.lastBuy < buy then (STATUS_UP, buy - st.lastBuy)
            else if buy < st.lastBuy then (STATUS_DOWN, buy - st.lastBuy)
            else (STATUS_NEUTRAL, 0)
          let hist := if MAX_HISTORY ≤ st.history.length
            then st.history.tail else st.history
          let hist := hist ++ [GoldEntry.mk buy sell sd.1 sd.2 created]
          { hasLastBuy := true, lastBuy := buy, shownUpdates := shown,
            history := hist }

/-- History item as serialized by the state endpoint (src/state.rs,
`HistoryItemOwned`), minus the float-computed `jt10`…`jt50` fields. -/
structure HistoryItemM where
  buying_rate : String
  selling_rate : String
  buying_rate_raw : Int
  selling_rate_raw : Int
  waktu_display : String
  diff_display : String
  transaction_display : String
  created_at : String
deriving DecidableEq

/-- Shallow embedding of `AppState::build_item` (src/state.rs lines
278–301), minus the float-computed `jt` fields. -/
def build_item (h : GoldEntry) : HistoryItemM :=
  let buyFmt := format_rupiah h.buying_rate
  let sellFmt := format_rupiah h.selling_rate
  let diffDisplay := format_diff_display h.diff h.status
  let waktuDisplay := format_waktu_only h.created_at h.status
  let transactionDisplay :=
    "Beli: " ++ buyFmt ++ "<br>Jual: " ++ sellFmt ++ "<br>" ++ diffDisplay
  { buying_rate := buyFmt
    selling_rate := sellFmt
    buying_rate_raw := h.buying_rate
    selling_rate_raw := h.selling_rate
    waktu_display := waktuDisplay
    diff_display := diffDisplay
    transaction_display := transactionDisplay
    created_at := h.created_at }

/-- State after appending the C2 scenario price entries
(buy=100 no prior, buy=120 after 100, buy=110 after 120). -/
def c2_state : TreasuryState :=
  process_data (process_data (process_data
    { hasLastBuy := false, lastBuy := 0, shownUpdates := [], history := [] }
    (some 100) (some 95) (some "2024-01-01 10:00:00"))
    (some 120) (some 115) (some "2024-01-01 10:05:00"))
    (some 110) (some 105) (some "2024-01-01 10:10:00")

/-- C2: appending (buy=100, no prior), (buy=120, prior 100), (buy=110,
prior 120) yields a 3-entry history whose (status, delta) pairs are the
code's neutral tag with 0, up tag with +20 and down tag with -10, and the
items built for the state endpoint carry `buying_rate_raw` and
`selling_rate_raw` exactly equal to the inserted values. -/
theorem C2_scenario_history :
    c2_state.history.map (fun e => (e.status, e.diff)) =
      [(STATUS_NEUTRAL, 0), (STATUS_UP, 20), (STATUS_DOWN, -10)] ∧
    (c2_state.history.map build_item).map
        (fun i => (i.buying_rate_raw, i.selling_rate_raw)) =
      [(100, 95), (120, 115), (110, 105)] ∧
    c2_state.history.length = 3 := by
  decide

/-! ## Rolling history (src/treasury.rs lines 72–84, src/usd_idr.rs lines 47–56)

Both append sites use the same shape: `if len >= CAP { pop_front() }` then
`push_back(entry)` on a `VecDeque`. -/

/-- One bounded append: evict the head when the capacity is already
reached, then append at the tail. -/
def push_bounded {α : Type} (cap : Nat) (h : List α) (x : α) : List α :=
  (if cap ≤ h.length then h.tail else h) ++ [x]

/-- The history produced by a whole sequence of bounded appends starting
from the empty history. -/
def run_appends {α : Type} (cap : Nat) (xs : List α) : List α :=
  xs.foldl (push_bounded cap) []

theorem foldl_push_bounded {α : Type} (cap : Nat) (hcap : 1 ≤ cap) :
    ∀ (xs acc : List α), acc.length ≤ cap →
      xs.foldl (push_bounded cap) acc = (acc ++ xs).drop ((acc ++ xs).length - cap) := by
  intro xs
  induction xs with
  | nil =>
    intro acc hacc
    have h0 : acc.length - cap = 0 := by omega
    simp [h0]
  | cons x xs ih =>
    intro acc hacc
    rw [List.foldl_cons]
    by_cases hfull : cap ≤ acc.length
    · cases acc with
      | nil =>
        exfalso
        simp only [List.length_nil] at hfull
        omega
      | cons a as =>
        have hfull' : cap ≤ as.length + 1 := by simpa using hfull
        have hpb : push_bounded cap (a :: as) x = as ++ [x] := by
          simp [push_bounded, hfull']
        rw [hpb]
        have hlen : (as ++ [x]).length ≤ cap := by
          simp only [List.length_cons] at hacc
          simp
          omega
        rw [ih (as ++ [x]) hlen]
        have e1 : (as ++ [x]) ++ xs = as ++ x :: xs := by simp
        have e2 : (a :: as) ++ x :: xs = a :: (as ++ x :: xs) := by simp
        rw [e1, e2]
        have hidx : (a :: (as ++ x :: xs)).length - cap
            = ((as ++ x :: xs).length - cap) + 1 := by
          simp only [List.length_cons, List.length_append]
          omega
        rw [hidx, List.drop_succ_cons]
    · have hpb : push_bounded cap acc x = acc ++ [x] := by
        simp only [push_bounded, if_neg hfull]
      rw [hpb]
      have hlen : (acc ++ [x]).length ≤ cap := by
        simp
        omega
      rw [ih (acc ++ [x]) hlen]
      have hlist : (acc ++ [x]) ++ xs = acc ++ x :: xs := by
        simp
      rw [hlist]

/-- Any sequence of bounded appends leaves exactly the trailing `cap`
entries, in insertion order. -/
theorem run_appends_eq {α : Type} (cap : Nat) (hcap : 1 ≤ cap) (xs : List α) :
    run_appends cap xs = xs.drop (xs.length - cap) := by
  have h := foldl_push_bounded cap hcap xs [] (by simp)
  simpa [run_appends] using h

/-- C7: for any append sequence longer than the capacity, the stored gold
history (capacity `MAX_HISTORY` = 1441) and USD history (capacity
`MAX_USD_HISTORY` = 11) have length exactly the capacity and equal the most
recent entries in insertion order (oldest evicted first); the stored length
never exceeds the capacity. -/
theorem C7_rolling_history :
    (∀ xs : List GoldEntry,
       (run_appends MAX_HISTORY xs).length ≤ MAX_HISTORY ∧
       (MAX_HISTORY < xs.length →
         run_appends MAX_HISTORY xs = xs.drop (xs.length - MAX_HISTORY) ∧
         (run_appends MAX_HISTORY xs).length = MAX_HISTORY)) ∧
    (∀ ys : List UsdIdrEntry,
       (run_appends MAX_USD_HISTORY ys).length ≤ MAX_USD_HISTORY ∧
       (MAX_USD_HISTORY < ys.length →
         run_appends MAX_USD_HISTORY ys = ys.drop (ys.length - MAX_USD_HISTORY) ∧
         (run_appends MAX_USD_HISTORY ys).length = MAX_USD_HISTORY)) := by
  constructor
  · intro xs
    have hcap : 1 ≤ MAX_HISTORY := by decide
    have heq := run_appends_eq MAX_HISTORY hcap xs
    constructor
    · rw [heq, List.length_drop]
      omega
    · intro hlong
      refine ⟨heq, ?_⟩
      rw [heq, List.length_drop]
      omega
  · intro ys
    have hcap : 1 ≤ MAX_USD_HISTORY := by decide
    have heq := run_appends_eq MAX_USD_HISTORY hcap ys
    constructor
    · rw [heq, List.length_drop]
      omega
    · intro hlong
      refine ⟨heq, ?_⟩
      rw [heq, List.length_drop]
      omega

/-- C7 witness: instantiations of `C7_rolling_history` at sequences one
longer than each capacity. -/
theorem C7_witness :
    (MAX_HISTORY < (List.replicate 1442 (GoldEntry.mk 1 1 "" 0 "")).length ∧
     (run_appends MAX_HISTORY (List.replicate 1442 (GoldEntry.mk 1 1 "" 0 ""))).length
       = MAX_HISTORY) ∧
    (MAX_USD_HISTORY < (List.replicate 12 (UsdIdrEntry.mk "" "")).length ∧
     (run_appends MAX_USD_HISTORY (List.replicate 12 (UsdIdrEntry.mk "" ""))).length
       = MAX_USD_HISTORY) :=
  ⟨⟨by simp only [List.length_replicate, MAX_HISTORY]; omega,
    ((C7_rolling_history.1 (List.replicate 1442 (GoldEntry.mk 1 1 "" 0 ""))).2
      (by simp only [List.length_replicate, MAX_HISTORY]; omega)).2⟩,
   ⟨by simp only [List.length_replicate, MAX_USD_HISTORY]; omega,
    ((C7_rolling_history.2 (List.replicate 12 (UsdIdrEntry.mk "" ""))).2
      (by simp only [List.length_replicate, MAX_USD_HISTORY]; omega)).2⟩⟩

/-! ## Abuse guard (src/state.rs lines 303–339)

Per-IP view of the `blocked_ips` and `failed_attempts` concurrent maps:
one IP's entries are independent of every other key, so the state for a
single IP is its timestamp list and optional ban expiry.  An absent map
entry is modelled as the empty list / `none` (for `failed_attempts` the
code's `or_insert_with(Vec::new-like)` makes these indistinguishable). -/

/-- Per-IP slice of the ban and failed-attempt tables. -/
structure AbuseState where
  failedAttempts : List Nat
  banExpiry : Option Nat
deriving DecidableEq

/-- Shallow embedding of `AppState::block_ip` (src/state.rs lines 317–321):
unconditionally overwrite the ban expiry with `now + duration`. -/
def block_ip (s : AbuseState) (now duration : Nat) : AbuseState :=
  { s with banExpiry := some (now + duration) }

/-- Shallow embedding of `AppState::record_failed_attempt` (src/state.rs
lines 323–339): push `weight` copies of `now`, retain entries with
`now - t < 60` (timestamps are monotone, so `u64` and `Nat` subtraction
agree), and insert a standard-duration ban when the count reaches
`MAX_FAILED_ATTEMPTS`. -/
def record_failed_attempt (s : AbuseState) (now weight : Nat) : AbuseState :=
  let entry := s.failedAttempts ++ List.replicate weight now
  let entry := entry.filter (fun t => decide (now - t < 60))
  if MAX_FAILED_ATTEMPTS ≤ entry.length then
    block_ip { s with failedAttempts := entry } now BLOCK_DURATION_SECS
  else
    { s with failedAttempts := entry }

/-- Shallow embedding of `AppState::is_ip_blocked` (src/state.rs lines
303–315): an unexpired ban returns true; an expired ban lazily removes
both the ban record and the failed-attempt record and returns false; no
ban returns false without touching the failed-attempt record. -/
def is_ip_blocked (s : AbuseState) (now : Nat) : Bool × AbuseState :=
  match s.banExpiry with
  | some expiry =>
    if now < expiry then (true, s)
    else (false, { failedAttempts := [], banExpiry := none })
  | none => (false, s)

theorem record_failed_attempt_eq (s : AbuseState) (now w : Nat) :
    record_failed_attempt s now w =
      if MAX_FAILED_ATTEMPTS ≤ (s.failedAttempts.filter (fun t => decide (now - t < 60))
          ++ List.replicate w now).length then
        AbuseState.mk (s.failedAttempts.filter (fun t => decide (now - t < 60))
          ++ List.replicate w now) (some (now + BLOCK_DURATION_SECS))
      else
        AbuseState.mk (s.failedAttempts.filter (fun t => decide (now - t < 60))
          ++ List.replicate w now) s.banExpiry := by
  have hfe : (s.failedAttempts ++ List.replicate w now).filter
        (fun t => decide (now - t < 60))
      = s.failedAttempts.filter (fun t => decide (now - t < 60))
          ++ List.replicate w now := by
    rw [List.filter_append,
        filter_replicate_of_true (fun t => decide (now - t < 60)) now
          (by simp [Nat.sub_self]) w]
  simp only [record_failed_attempt, block_ip, hfe]

/-- C3: one `record_failed_attempt(ip, w)` call leaves exactly the pruned
old entries followed by `w` fresh copies of `now`; whenever the unexpired
weight reaches `MAX_FAILED_ATTEMPTS` (5) the call installs a ban expiring
at `now + BLOCK_DURATION_SECS` (300), so `is_blocked` is true strictly
before that instant, and false from that instant on, with the first check
after expiry clearing both the ban and the failed-attempt record. -/
theorem C3_abuse_guard (s : AbuseState) (now w : Nat)
    (_hmono : ∀ t ∈ s.failedAttempts, t ≤ now) :
    (record_failed_attempt s now w).failedAttempts
      = s.failedAttempts.filter (fun t => decide (now - t < 60))
          ++ List.replicate w now ∧
    (MAX_FAILED_ATTEMPTS ≤ (record_failed_attempt s now w).failedAttempts.length →
      (record_failed_attempt s now w).banExpiry = some (now + BLOCK_DURATION_SECS) ∧
      (∀ t2, t2 < now + BLOCK_DURATION_SECS →
        is_ip_blocked (record_failed_attempt s now w) t2
          = (true, record_failed_attempt s now w)) ∧
      (∀ t2, now + BLOCK_DURATION_SECS ≤ t2 →
        is_ip_blocked (record_failed_attempt s now w) t2
          = (false, AbuseState.mk [] none))) := by
  rw [record_failed_attempt_eq]
  split
  · next hfull =>
    refine ⟨rfl, fun _ => ⟨rfl, ?_, ?_⟩⟩
    · intro t2 ht2
      simp [is_ip_blocked, ht2]
    · intro t2 ht2
      have : ¬ t2 < now + BLOCK_DURATION_SECS := by omega
      simp [is_ip_blocked, this]
  · next hfull =>
    refine ⟨rfl, fun hlen => absurd hlen ?_⟩
    simpa using hfull

/-- C3 witness: five weight-1 failures at time 100 trigger a ban that
holds at time 399 and clears at time 400. -/
theorem C3_witness :
    (∀ t ∈ ([] : List Nat), t ≤ 100) ∧
    ((record_failed_attempt (AbuseState.mk [] none) 100 5).failedAttempts
      = List.replicate 5 100 ∧
     (record_failed_attempt (AbuseState.mk [] none) 100 5).banExpiry = some 400 ∧
     is_ip_blocked (record_failed_attempt (AbuseState.mk [] none) 100 5) 399
      = (true, record_failed_attempt (AbuseState.mk [] none) 100 5) ∧
     is_ip_blocked (record_failed_attempt (AbuseState.mk [] none) 100 5) 400
      = (false, AbuseState.mk [] none)) := by
  have h := C3_abuse_guard (AbuseState.mk [] none) 100 5 (by simp)
  refine ⟨by simp, by simpa using h.1, ?_, ?_, ?_⟩
  · exact (h.2 (by rw [h.1]; decide)).1
  · exact (h.2 (by rw [h.1]; decide)).2.1 399 (by decide)
  · exact (h.2 (by rw [h.1]; decide)).2.2 400 (by decide)

/-! ## Privileged control endpoint (src/handlers.rs lines 130–191) -/

/-- The response branch taken by `set_limit`. -/
inductive SetLimitOutcome where
  | ipBlockedResp
  | keyRequired
  | accessDenied
  | valueNotNumber
  | tooFast
  | outOfRange
  | success (v : Int)
deriving DecidableEq

/-- Observable effect of one `set_limit` request: the response branch, the
weight passed to `record_failed_attempt` (if any), the `limit_bulan` and
`last_successful_call` values afterwards, and whether the cache was
invalidated and a broadcast sent. -/
structure SetLimitResult where
  outcome : SetLimitOutcome
  recordedWeight : Option Nat
  limit : Int
  lastSuccessfulCall : Nat
  cacheInvalidated : Bool
  broadcasted : Bool
deriving DecidableEq

/-- Model of Rust `str::parse::<i64>`: an optional sign followed by one or
more ASCII digits, within the `i64` range. -/
def parseI64 (s : String) : Option Int :=
  let cs := s.toList
  let sc : Int × List Char :=
    match cs with
    | '+' :: rest => (1, rest)
    | '-' :: rest => (-1, rest)
    | _ => (1, cs)
  if sc.2.isEmpty then none
  else if !(sc.2.all Char.isDigit) then none
  else
    let mag : Nat := sc.2.foldl (fun a c => a * 10 + (c.toNat - 48)) 0
    let v : Int := sc.1 * mag
    if v < -(2 ^ 63) ∨ 2 ^ 63 - 1 < v then none else some v

/-- Shallow embedding of `handlers::set_limit` (src/handlers.rs lines
130–191).  `ipBlocked` is the verdict of `is_ip_blocked` for the caller;
`secret` is the configured `SECRET_KEY`.  The `subtle` constant-time
comparison `kb.len() != sb.len() || kb.ct_eq(sb).unwrap_u8() != 1`
computes exactly byte inequality of `key` and `secret`, i.e. `k ≠ secret`
(its timing behaviour is outside this embedding).  `value` is the path
segment; the check order is the source's: blocked → key presence → key
match → numeric parse → cooldown → range → mutate, invalidate, broadcast. -/
def set_limit (limit : Int) (lastSuccess : Nat) (ipBlocked : Bool) (now : Nat)
    (value : String) (key : Option String) (secret : String) : SetLimitResult :=
  if ipBlocked then
    SetLimitResult.mk .ipBlockedResp none limit lastSuccess false false
  else
    match key with
    | none => SetLimitResult.mk .keyRequired (some 2) limit lastSuccess false false
    | some k =>
      if k = "" then
        SetLimitResult.mk .keyRequired (some 2) limit lastSuccess false false
      else if k ≠ secret then
        SetLimitResult.mk .accessDenied (some 1) limit lastSuccess false false
      else
        match parseI64 value with
        | none => SetLimitResult.mk .valueNotNumber (some 1) limit lastSuccess false false
        | some v =>
          if now - lastSuccess < RATE_LIMIT_SECONDS then
            SetLimitResult.mk .tooFast none limit lastSuccess false false
          else if v < MIN_LIMIT ∨ MAX_LIMIT < v then
            SetLimitResult.mk .outOfRange none limit lastSuccess false false
          else
            SetLimitResult.mk (.success v) none v now true true

/-- C4 counterexample: a request with the secret absent records weight 2,
not the claimed weight 1. -/
theorem C4_counterexample :
    (set_limit 8 0 false 1000 "5" none "indonesia").recordedWeight = some 2 ∧
    (some 2 : Option Nat) ≠ some 1 := by
  decide

/-- C4 (amended): for a caller that is not currently banned, a request
with the secret absent or empty is rejected with `record_failed_attempt(ip, 2)`,
a request with a non-empty mismatching secret is rejected with
`record_failed_attempt(ip, 1)`, and neither mutates the config, invalidates
the cache, broadcasts, or advances the cooldown stamp; a request carrying
exactly the configured (non-empty) secret is never rejected by the
secret comparison, which accepts precisely byte-for-byte equality (the
code performs it with a constant-time primitive; timing is not modelled). -/
theorem C4_secret_gate (limit : Int) (lastSuccess now : Nat) (value : String)
    (secret : String) :
    (∀ key : Option String, key = none ∨ key = some "" →
       set_limit limit lastSuccess false now value key secret
         = SetLimitResult.mk .keyRequired (some 2) limit lastSuccess false false) ∧
    (∀ k : String, k ≠ "" → k ≠ secret →
       set_limit limit lastSuccess false now value (some k) secret
         = SetLimitResult.mk .accessDenied (some 1) limit lastSuccess false false) ∧
    (secret ≠ "" →
       (set_limit limit lastSuccess false now value (some secret) secret).outcome
         ≠ SetLimitOutcome.keyRequired ∧
       (set_limit limit lastSuccess false now value (some secret) secret).outcome
         ≠ SetLimitOutcome.accessDenied) := by
  refine ⟨?_, ?_, ?_⟩
  · intro key hk
    rcases hk with h | h <;> subst h <;> simp [set_limit]
  · intro k h1 h2
    simp [set_limit, h1, h2]
  · intro hs
    cases hp : parseI64 value with
    | none => constructor <;> simp [set_limit, hs, hp]
    | some v =>
      by_cases hcool : now - lastSuccess < RATE_LIMIT_SECONDS
      · constructor <;> simp [set_limit, hs, hp, hcool]
      · by_cases hrange : v < MIN_LIMIT ∨ MAX_LIMIT < v
        · constructor <;> simp [set_limit, hs, hp, hcool, hrange]
        · constructor <;> simp [set_limit, hs, hp, hcool, hrange]

/-- C4 witness: concrete instantiations of `C4_secret_gate`. -/
theorem C4_witness :
    ((none : Option String) = none ∨ (none : Option String) = some "") ∧
    set_limit 8 0 false 1000 "5" none "indonesia"
      = SetLimitResult.mk .keyRequired (some 2) 8 0 false false ∧
    ("wrong" ≠ "" ∧ "wrong" ≠ "indonesia") ∧
    set_limit 8 0 false 1000 "5" (some "wrong") "indonesia"
      = SetLimitResult.mk .accessDenied (some 1) 8 0 false false ∧
    ("indonesia" ≠ "" ∧
      (set_limit 8 0 false 1000 "5" (some "indonesia") "indonesia").outcome
        ≠ SetLimitOutcome.keyRequired) :=
  ⟨Or.inl rfl,
   (C4_secret_gate 8 0 1000 "5" "indonesia").1 none (Or.inl rfl),
   ⟨by decide, by decide⟩,
   (C4_secret_gate 8 0 1000 "5" "indonesia").2.1 "wrong" (by decide) (by decide),
   ⟨by decide, ((C4_secret_gate 8 0 1000 "5" "indonesia").2.2 (by decide)).1⟩⟩

/-- C8 counterexample: a request carrying the valid secret but a
non-numeric value, arriving 2 seconds after the last successful call
(inside the 5-second cooldown), is rejected at the parse step and records
a failed-attempt penalty of weight 1 — contradicting the claim that such
requests incur no penalty. -/
theorem C8_counterexample :
    (set_limit 8 1000 false 1002 "abc" (some "indonesia") "indonesia").recordedWeight
      = some 1 ∧
    (set_limit 8 1000 false 1002 "abc" (some "indonesia") "indonesia").outcome
      = SetLimitOutcome.valueNotNumber := by
  decide

/-- C8 (amended): for a caller that is not currently banned, a request
carrying the valid (non-empty) secret and a value that parses as an
integer, arriving less than `RATE_LIMIT_SECONDS` (5) seconds after the
last successful call, is rejected on the cooldown branch with no config
mutation, no cache invalidation, no broadcast, no cooldown-stamp update
and no failed-attempt penalty. -/
theorem C8_cooldown (limit : Int) (lastSuccess now : Nat) (value : String)
    (secret : String) (v : Int)
    (hs : secret ≠ "") (hp : parseI64 value = some v)
    (_hlast : lastSuccess ≤ now)
    (hcool : now - lastSuccess < RATE_LIMIT_SECONDS) :
    set_limit limit lastSuccess false now value (some secret) secret
      = SetLimitResult.mk .tooFast none limit lastSuccess false false := by
  simp [set_limit, hs, hp, hcool]

/-- C8 witness: concrete instantiation of `C8_cooldown`. -/
theorem C8_witness :
    ("indonesia" ≠ "" ∧ parseI64 "5" = some 5 ∧ 1000 ≤ 1002 ∧
      1002 - 1000 < RATE_LIMIT_SECONDS) ∧
    set_limit 8 1000 false 1002 "5" (some "indonesia") "indonesia"
      = SetLimitResult.mk .tooFast none 8 1000 false false :=
  ⟨⟨by decide, by decide, by decide, by decide⟩,
   C8_cooldown 8 1000 1002 "5" "indonesia" 5 (by decide) (by decide)
     (by decide) (by decide)⟩

/-! ## Security pipeline (src/security.rs) -/

/-- Model of Rust `str::contains(pat)`: some suffix of the haystack starts
with the needle. -/
def containsSub (needle : List Char) : List Char → Bool
  | [] => needle.isEmpty
  | c :: rest => needle.isPrefixOf (c :: rest) || containsSub needle rest

/-- Model of Rust `str::to_lowercase` for the ASCII paths in scope
(`Char.toLower` lowercases exactly the ASCII uppercase letters). -/
def toLowerM (s : String) : String :=
  String.mk (s.toList.map Char.toLower)

/-- Shallow embedding of `security::is_suspicious` (src/security.rs lines
32–38): lowercase the path; paths under the privileged-control prefix
`/aturt` are exempt; otherwise match any denylist fragment as a substring. -/
def is_suspicious (path : String) : Bool :=
  let p := toLowerM path
  if List.isPrefixOf "/aturt".toList p.toList then false
  else SUSPICIOUS_PATHS.any (fun s => containsSub s.toList p.toList)

/-- The whitelist test of `security_middleware` (src/security.rs lines
62–63): four exact paths plus the case-insensitive `/aturt` prefix. -/
def whitelisted (path : String) : Bool :=
  path == "/ws" || path == "/api/state" || path == "/health" || path == "/"
    || List.isPrefixOf "/aturt".toList (toLowerM path).toList

/-- Response category of the security middleware. -/
inductive SecOutcome where
  | tooManyRequests
  | forbidden
  | forward
deriving DecidableEq

/-- Observable effect of the security middleware on one request: the
response, whether `rate_limiter.check` was invoked, the `block_ip`
duration applied (if any), and the `record_failed_attempt` weight (if
any). -/
structure SecResult where
  outcome : SecOutcome
  rateLimiterInvoked : Bool
  banDuration : Option Nat
  recordedWeight : Option Nat
deriving DecidableEq

/-- Shallow embedding of `security::security_middleware` (src/security.rs
lines 49–86).  `ipBlocked` is the caller's `is_ip_blocked` verdict and
`verdict` the status `rate_limiter.check` would return for it; the
rate limiter is consulted exactly when the path is not whitelisted
(`rateLimiterInvoked`). -/
def security_middleware (ipBlocked : Bool) (verdict : RateLimitStatus)
    (path : String) : SecResult :=
  if ipBlocked then
    SecResult.mk .tooManyRequests false none none
  else if whitelisted path = false ∧ verdict = RateLimitStatus.Blocked then
    SecResult.mk .tooManyRequests true (some 600) none
  else if whitelisted path = false ∧ verdict = RateLimitStatus.Limited then
    SecResult.mk .tooManyRequests true none none
  else if is_suspicious path then
    SecResult.mk .forbidden (!whitelisted path) none (some 3)
  else
    SecResult.mk .forward (!whitelisted path) none none

/-- C5: a request to a whitelisted path never invokes the rate limiter; a
request whose lowercased path contains a denylist fragment and is not
under the `/aturt` privileged-control prefix, from a caller that is
neither banned nor rate-limited, is rejected as forbidden with failed
attempts incremented by the suspicious-path weight 3; a path under the
privileged-control prefix is never rejected as forbidden. -/
theorem C5_security_pipeline (path : String) (b : Bool) (v : RateLimitStatus) :
    (whitelisted path = true →
      (security_middleware b v path).rateLimiterInvoked = false) ∧
    ((∃ frag ∈ SUSPICIOUS_PATHS,
        containsSub frag.toList (toLowerM path).toList = true) →
      List.isPrefixOf "/aturt".toList (toLowerM path).toList = false →
      b = false →
      (whitelisted path = true ∨ v = RateLimitStatus.Ok) →
      (security_middleware b v path).outcome = SecOutcome.forbidden ∧
      (security_middleware b v path).recordedWeight = some 3) ∧
    (List.isPrefixOf "/aturt".toList (toLowerM path).toList = true →
      (security_middleware b v path).outcome ≠ SecOutcome.forbidden) := by
  refine ⟨?_, ?_, ?_⟩
  · intro hw
    cases b <;> cases hsp : is_suspicious path <;>
      simp [security_middleware, hw, hsp]
  · intro hex hpre hb hpass
    subst hb
    have hsusp : is_suspicious path = true := by
      simp only [is_suspicious, hpre, Bool.false_eq_true, if_false,
        List.any_eq_true]
      obtain ⟨frag, hmem, hc⟩ := hex
      exact ⟨frag, hmem, hc⟩
    rcases hpass with hw | hv
    · simp [security_middleware, hw, hsusp]
    · subst hv
      simp [security_middleware, hsusp]
  · intro hpre
    have hpre' : "/aturt".toList <+: (toLowerM path).toList :=
      List.isPrefixOf_iff_prefix.mp hpre
    have hw : whitelisted path = true := by
      have hl : ['/', 'a', 't', 'u', 'r', 't'] <+: (toLowerM path).data := by
        simpa using hpre'
      simp [whitelisted, hl]
    have hns : is_suspicious path = false := by
      simp only [is_suspicious, hpre, if_true]
    cases b <;> simp [security_middleware, hw, hns]

/-- C5 witness: concrete instantiations of `C5_security_pipeline` — the
whitelisted `/ws` path, the denylisted `/admin` path, and a path under the
privileged-control prefix that contains a denylist fragment. -/
theorem C5_witness :
    (whitelisted "/ws" = true ∧
      (security_middleware false RateLimitStatus.Ok "/ws").rateLimiterInvoked
        = false) ∧
    ((∃ frag ∈ SUSPICIOUS_PATHS,
        containsSub frag.toList (toLowerM "/admin").toList = true) ∧
      (security_middleware false RateLimitStatus.Ok "/admin").outcome
        = SecOutcome.forbidden ∧
      (security_middleware false RateLimitStatus.Ok "/admin").recordedWeight
        = some 3) ∧
    (List.isPrefixOf "/aturt".toList (toLowerM "/aturTS/.env").toList = true ∧
      (security_middleware false RateLimitStatus.Ok "/aturTS/.env").outcome
        ≠ SecOutcome.forbidden) :=
  ⟨⟨by decide, (C5_security_pipeline "/ws" false RateLimitStatus.Ok).1 (by decide)⟩,
   ⟨by decide,
    (C5_security_pipeline "/admin" false RateLimitStatus.Ok).2.1 (by decide)
      (by decide) rfl (Or.inr rfl)⟩,
   ⟨by decide,
    (C5_security_pipeline "/aturTS/.env" false RateLimitStatus.Ok).2.2 (by decide)⟩⟩

/-! ## Client identity resolution (src/security.rs lines 16–30 and
src/handlers.rs lines 26–40) -/

/-- A request's identity headers: for each header, `none` when absent,
`some none` when present but not readable as a string (`to_str` fails),
`some (some s)` when readable as `s`. -/
structure HeaderMapM where
  xForwardedFor : Option (Option String)
  xRealIp : Option (Option String)

/-- Model of Rust `str::trim`: drop whitespace from both ends. -/
def trimM (s : String) : String :=
  String.mk (((s.toList.dropWhile Char.isWhitespace).reverse.dropWhile
    Char.isWhitespace).reverse)

/-- Model of `s.split(',').next()` (which always yields a first element):
everything before the first comma. -/
def firstCommaField (s : String) : String :=
  String.mk (s.toList.takeWhile (fun c => c != ','))

/-- Shallow embedding of `security::get_client_ip` (src/security.rs lines
16–30): first entry of a readable `x-forwarded-for`, trimmed; else a
readable `x-real-ip`, trimmed; else the literal `unknown`. -/
def get_client_ip (h : HeaderMapM) : String :=
  match h.xForwardedFor with
  | some (some s) => trimM (firstCommaField s)
  | _ =>
    match h.xRealIp with
    | some (some s) => trimM s
    | _ => "unknown"

/-- Shallow embedding of `handlers::ip_from_headers` (src/handlers.rs
lines 26–40), translated independently from its own source lines. -/
def ip_from_headers (h : HeaderMapM) : String :=
  match h.xForwardedFor with
  | some (some s) => trimM (firstCommaField s)
  | _ =>
    match h.xRealIp with
    | some (some s) => trimM s
    | _ => "unknown"

/-- Client identity exactly as the claim words it: the first
comma-separated entry of `x-forwarded-for` (trimmed) if present and
readable, else the trimmed `x-real-ip` value, else `unknown` (reference
definition for the C10 refinement). -/
def client_ip_spec (h : HeaderMapM) : String :=
  match h.xForwardedFor with
  | some (some s) => trimM (firstCommaField s)
  | _ =>
    match h.xRealIp with
    | some (some s) => trimM s
    | _ => "unknown"

/-- C10: the middleware's `get_client_ip` and the handlers'
`ip_from_headers` agree on every possible header map, and both compute
the claim's described value. -/
theorem C10_ip_resolution_agree (h : HeaderMapM) :
    get_client_ip h = ip_from_headers h ∧ get_client_ip h = client_ip_spec h :=
  ⟨rfl, rfl⟩

/-! ## Snapshot cache (src/state.rs lines 130–208)

Times are milliseconds; `current.created_at.elapsed()` is `now - createdAt`
for a monotone clock.  `build` stands for `build_full_state_fast`, a pure
function of the locked source state `σ` — the cache logic under
verification never inspects the produced bytes. -/

/-- The cached snapshot (src/state.rs, `CachedState`): serialized bytes,
the stamped version, and the creation instant. -/
structure CachedState where
  data : String
  version : Nat
  createdAt : Nat
deriving DecidableEq

/-- The cache-relevant slice of `AppState`: the source state the rebuild
reads, the `cache_version` counter, and the current `state_cache`. -/
structure CacheState (σ : Type) where
  source : σ
  cacheVersion : Nat
  stateCache : CachedState

/-- Shallow embedding of `AppState::invalidate_cache` (src/state.rs lines
184–187): bump the version counter. -/
def invalidate_cache {σ : Type} (s : CacheState σ) : CacheState σ :=
  { s with cacheVersion := s.cacheVersion + 1 }

/-- Shallow embedding of `AppState::get_cached_state` (src/state.rs lines
189–208): serve the cached buffer when its stamped version equals the
current version and it is younger than `STATE_CACHE_TTL_MS`; otherwise
rebuild from the source, store the result stamped with the version read
before the rebuild, and serve it.  Returns the served bytes, whether a
rebuild happened, and the state afterwards. -/
def get_cached_state {σ : Type} (build : σ → String) (s : CacheState σ)
    (now : Nat) : String × Bool × CacheState σ :=
  let current := s.stateCache
  let ver := s.cacheVersion
  if current.version = ver ∧ now - current.createdAt < STATE_CACHE_TTL_MS then
    (current.data, false, s)
  else
    let data := build s.source
    (data, true, { s with stateCache := CachedState.mk data ver now })

/-- C6: calling `get_cached_state` twice with no intervening mutation,
the second call within the TTL of the stored snapshot, returns
byte-identical data, takes the cache-hit path (no rebuild), and leaves
the state untouched. -/
theorem C6_snapshot_cache {σ : Type} (build : σ → String) (s : CacheState σ)
    (t0 t1 : Nat)
    (httl : t1 - ((get_cached_state build s t0).2.2).stateCache.createdAt
              < STATE_CACHE_TTL_MS) :
    get_cached_state build ((get_cached_state build s t0).2.2) t1
      = ((get_cached_state build s t0).1, false, (get_cached_state build s t0).2.2) := by
  by_cases h1 : s.stateCache.version = s.cacheVersion ∧
      t0 - s.stateCache.createdAt < STATE_CACHE_TTL_MS
  · have hfst : get_cached_state build s t0 = (s.stateCache.data, false, s) := by
      simp [get_cached_state, h1]
    rw [hfst] at httl ⊢
    have h2 : s.stateCache.version = s.cacheVersion ∧
        t1 - s.stateCache.createdAt < STATE_CACHE_TTL_MS := ⟨h1.1, httl⟩
    simp [get_cached_state, h2]
  · have hfst : get_cached_state build s t0
        = (build s.source, true,
           { s with stateCache := CachedState.mk (build s.source) s.cacheVersion t0 }) := by
      simp [get_cached_state, h1]
    rw [hfst] at httl ⊢
    have httl' : t1 - t0 < STATE_CACHE_TTL_MS := by simpa using httl
    simp [get_cached_state, httl']

/-- C6 witness: concrete instantiation of `C6_snapshot_cache` — a first
call at t=100 ms rebuilds, a second at t=110 ms hits the cache and serves
the identical bytes. -/
theorem C6_witness :
    (110 - ((get_cached_state (fun _ : Nat => "snap")
        (CacheState.mk 0 0 (CachedState.mk "old" 0 0)) 100).2.2).stateCache.createdAt
       < STATE_CACHE_TTL_MS) ∧
    get_cached_state (fun _ : Nat => "snap")
        ((get_cached_state (fun _ : Nat => "snap")
          (CacheState.mk 0 0 (CachedState.mk "old" 0 0)) 100).2.2) 110
      = ((get_cached_state (fun _ : Nat => "snap")
            (CacheState.mk 0 0 (CachedState.mk "old" 0 0)) 100).1, false,
         (get_cached_state (fun _ : Nat => "snap")
            (CacheState.mk 0 0 (CachedState.mk "old" 0 0)) 100).2.2) :=
  ⟨by decide,
   C6_snapshot_cache (fun _ : Nat => "snap")
     (CacheState.mk 0 0 (CachedState.mk "old" 0 0)) 100 110 (by decide)⟩

/-! ## Broadcast hub admission control (src/ws_manager.rs lines 23–34) -/

/-- Shallow embedding of `WsManager::subscribe`: `fetch_add(1)` returns
the old counter value; when the old value has already reached
`MAX_CONNECTIONS` the counter is decremented back and no receiver is
returned.  Result: the optional receiver (modelled as `Option Unit`; a
`broadcast::Receiver` is opaque to admission control) and the counter
afterwards. -/
def subscribe (count : Nat) : Option Unit × Nat :=
  let old := count
  let incremented := count + 1
  if MAX_CONNECTIONS ≤ old then (none, incremented - 1) else (some (), incremented)

/-- Shallow embedding of `WsManager::unsubscribe`: decrement the counter
(callers pair it with a successful subscribe, so the counter is positive). -/
def unsubscribe (count : Nat) : Nat := count - 1

/-- C9: `subscribe` increments the connection counter and, when the result
would exceed `MAX_CONNECTIONS` (500), decrements it back and yields no
receiver — in particular at 500 active subscribers every further
subscribe is refused with the counter unchanged; below the cap it yields
a receiver with the counter incremented; `unsubscribe` decrements the
counter by one. -/
theorem C9_admission_control (n : Nat) :
    (MAX_CONNECTIONS ≤ n → subscribe n = (none, n)) ∧
    (n < MAX_CONNECTIONS → subscribe n = (some (), n + 1)) ∧
    (1 ≤ n → unsubscribe n = n - 1) := by
  refine ⟨?_, ?_, ?_⟩
  · intro hge
    simp [subscribe, hge]
  · intro hlt
    have hne : ¬ MAX_CONNECTIONS ≤ n := by omega
    simp [subscribe, hne]
  · intro _
    rfl

/-- C9 witness: concrete instantiations of `C9_admission_control` at the
cap, below the cap, and for one unsubscribe. -/
theorem C9_witness :
    (MAX_CONNECTIONS ≤ 500 ∧ subscribe 500 = (none, 500)) ∧
    ((0 : Nat) < MAX_CONNECTIONS ∧ subscribe 0 = (some (), 1)) ∧
    (1 ≤ 1 ∧ unsubscribe 1 = 0) :=
  ⟨⟨by decide, (C9_admission_control 500).1 (by decide)⟩,
   ⟨by decide, (C9_admission_control 0).2.1 (by decide)⟩,
   ⟨by decide, (C9_admission_control 1).2.2 (by decide)⟩⟩

end Tskuy
